import Mathlib

/-!
# Verification of the SigmaGuide reactive guidance core

Shallow embedding of the reactive guidance loop and coordinate-resolution
pipeline of the SigmaGuide repository:

* `src/agents/reactiveOrchestrator.ts` — resolver, completion classifiers,
  change detector, guidance-loop operations (manual check, click handler,
  background popup check, user-message processing);
* `src/lib/prompts.ts` (coordinate parser section) — response parsing;
* the perceptual-hash module — `hashDistance`.

External capabilities (screen capture, the vision model, the accessibility
lookup, the overlay/presentation sink, the chat store) are modelled as
explicit inputs and effect records: capture results and model responses are
parameters, chat messages and call counts are returned in an `Effects`
record.  JavaScript numbers are modelled as `ℚ` (exact where the source
performs exact arithmetic); JavaScript strings as `String` (the texts
involved are ASCII plus a few fixed emoji, where UTF-16 length and
code-point length agree).
-/

namespace SigmaGuide

/-! ## Characters and JS-style string helpers -/

/-- The `{` character (written via its code point). -/
def lbrace : Char := Char.ofNat 123

/-- The `}` character (written via its code point). -/
def rbrace : Char := Char.ofNat 125

/-- The single-quote character. -/
def squote : Char := Char.ofNat 39

/-- The double-quote character. -/
def dquote : Char := Char.ofNat 34

/-- The backtick character. -/
def btick : Char := Char.ofNat 96

/-- First index `i ≥ start` at which `pat` occurs in `l`, scanning left to
right (the semantics of a leftmost regex/`indexOf` scan). -/
def firstIdxFrom (l pat : List Char) (start : Nat) : Option Nat :=
  (List.range (l.length + 1)).find? fun i =>
    decide (start ≤ i) && pat.isPrefixOf (l.drop i)

/-- JS `String.prototype.indexOf`: index of the first occurrence, `-1` if
absent. -/
def jsIndexOf (s pat : String) : Int :=
  match firstIdxFrom s.toList pat.toList 0 with
  | some i => (i : Int)
  | none => -1

/-- Does `pat` occur in `l` at or after `start`? -/
def hasOccFrom (l pat : List Char) (start : Nat) : Bool :=
  (firstIdxFrom l pat start).isSome

/-- Last index at which character `c` occurs in `l`. -/
def lastIdxOfChar (l : List Char) (c : Char) : Option Nat :=
  (List.range l.length).filter (fun i => l.get? i = some c) |>.getLast?

/-- JS `substring`-style slice `[a, b)` of a character list. -/
def sliceList (l : List Char) (a b : Nat) : List Char :=
  (l.take b).drop a

/-- JS `substring`-style slice of a string. -/
def jsSlice (s : String) (a b : Nat) : String :=
  String.mk (sliceList s.toList a b)

/-! ## Data model (`src/lib/prompts.ts` parser section, interfaces) -/

/-- Provenance tag of a resolved coordinate (`coordinateSource`). -/
inductive CoordinateSource
  | accessibility
  | ai
deriving DecidableEq

/-- `ParsedCoordinates`: `{ x, y, width?, height?, coordinateSource? }`. -/
structure ParsedCoordinates where
  x : ℚ
  y : ℚ
  width : Option ℚ := none
  height : Option ℚ := none
  coordinateSource : Option CoordinateSource := none
deriving DecidableEq

/-- `TargetDescription`: `{ text, type?, context? }`. -/
structure TargetDescription where
  text : String
  type : Option String := none
  context : Option String := none
deriving DecidableEq

/-- `ParsedResponse`: `{ text, coordinates?, target? }`. -/
structure ParsedResponse where
  text : String
  coordinates : Option ParsedCoordinates := none
  target : Option TargetDescription := none
deriving DecidableEq

/-! ## Coordinate resolver (`reactiveOrchestrator.ts`, lines 34–145) -/

/-- Bounding box returned by the accessibility lookup capability
(`findElementAccessibility`): top-left corner plus size. -/
structure AccessibilityBox where
  x : ℚ
  y : ℚ
  width : ℚ
  height : ℚ
deriving DecidableEq

/-- Environment of `resolveCoordinatesViaAccessibility`: `available`
collapses the platform guards (window defined, `electronAPI` present,
`findElementAccessibility` present, platform is darwin); `lookup` is the
result of the external call, `none` covering both "element not found" and
"lookup threw" (the `catch` branch also yields `null`). -/
structure AccessibilityEnv where
  available : Bool
  lookup : Option AccessibilityBox
deriving DecidableEq

/-- `resolveCoordinatesViaAccessibility` (lines 34–96): on success converts
the top-left+size box to a center point `(x + width/2, y + height/2)` with
`coordinateSource = 'accessibility'`; every guard/failure path returns
`null`. -/
def resolveCoordinatesViaAccessibility (env : AccessibilityEnv) :
    Option ParsedCoordinates :=
  if env.available then
    match env.lookup with
    | some r =>
        some { x := r.x + r.width / 2, y := r.y + r.height / 2,
               width := some r.width, height := some r.height,
               coordinateSource := some CoordinateSource.accessibility }
    | none => none
  else none

/-- `resolveCoordinates` (lines 103–145): step 1 tries the accessibility
path when `target && target.text` (JS truthiness: non-empty text); step 2
falls back to the AI-provided coordinates, re-tagged
`coordinateSource = 'ai'`; otherwise `null`.  The `screenshot` argument is
unused in the source body and kept for signature fidelity. -/
def resolveCoordinates (env : AccessibilityEnv)
    (target : Option TargetDescription)
    (fallbackCoords : Option ParsedCoordinates)
    (screenshot : String) : Option ParsedCoordinates :=
  let _ := screenshot
  let viaAcc : Option ParsedCoordinates :=
    match target with
    | some t =>
        if t.text ≠ "" then resolveCoordinatesViaAccessibility env else none
    | none => none
  match viaAcc with
  | some c => some c
  | none =>
      match fallbackCoords with
      | some fc => some { fc with coordinateSource := some CoordinateSource.ai }
      | none => none

end SigmaGuide

/-! ## C1: resolver priority (accessibility wins, fallback untouched) -/

namespace SigmaGuide

/-- C1. If the target has non-empty text and the accessibility lookup
returns a box, `resolveCoordinates` returns exactly the accessibility
center point `(x + width/2, y + height/2)` with width/height preserved and
source `accessibility`; the result is a record built only from the box, so
no field of the fallback coordinates appears in it (the equation holds for
every value of `fallbackCoords`). -/
theorem resolveCoordinates_accessibility_priority
    (env : AccessibilityEnv) (t : TargetDescription) (box : AccessibilityBox)
    (fallbackCoords : Option ParsedCoordinates) (screenshot : String)
    (htext : t.text ≠ "") (hav : env.available = true)
    (hbox : env.lookup = some box) :
    resolveCoordinates env (some t) fallbackCoords screenshot =
      some { x := box.x + box.width / 2, y := box.y + box.height / 2,
             width := some box.width, height := some box.height,
             coordinateSource := some CoordinateSource.accessibility } := by
  simp [resolveCoordinates, resolveCoordinatesViaAccessibility, hav, hbox, htext]

/-- Witness for C1 at a concrete input: box `(10,20,30,40)` with a
competing fallback `(1,2)` resolves to the accessibility center
`(25, 40)`. -/
theorem resolveCoordinates_accessibility_priority_witness :
    resolveCoordinates ⟨true, some ⟨10, 20, 30, 40⟩⟩
        (some ⟨"Save", none, none⟩)
        (some ⟨1, 2, none, none, none⟩) "shot" =
      some { x := (10 : ℚ) + 30 / 2, y := (20 : ℚ) + 40 / 2,
             width := some 30, height := some 40,
             coordinateSource := some CoordinateSource.accessibility } :=
  resolveCoordinates_accessibility_priority
    ⟨true, some ⟨10, 20, 30, 40⟩⟩ ⟨"Save", none, none⟩ ⟨10, 20, 30, 40⟩
    (some ⟨1, 2, none, none, none⟩) "shot" (by decide) rfl rfl

end SigmaGuide

/-! ## C6: resolver fallback and null case -/

namespace SigmaGuide

/-- C6. When no target text is available (no target, or empty text) or the
accessibility lookup yields nothing, `resolveCoordinates` returns the
fallback coordinates re-tagged `source = ai` with `x`/`y` (and
width/height) unchanged when a fallback is present, and `null` when it is
absent. -/
theorem resolveCoordinates_fallback
    (env : AccessibilityEnv) (target : Option TargetDescription)
    (fallbackCoords : Option ParsedCoordinates) (screenshot : String)
    (hnoacc : match target with
      | some t => t.text = "" ∨ resolveCoordinatesViaAccessibility env = none
      | none => True) :
    (∀ fc, fallbackCoords = some fc →
        resolveCoordinates env target fallbackCoords screenshot =
          some { fc with coordinateSource := some CoordinateSource.ai }) ∧
    (fallbackCoords = none →
        resolveCoordinates env target fallbackCoords screenshot = none) := by
  constructor
  · intro fc hfc
    subst hfc
    match target with
    | none => simp [resolveCoordinates]
    | some t =>
        rcases hnoacc with h | h
        · simp [resolveCoordinates, h]
        · by_cases ht : t.text = "" <;> simp [resolveCoordinates, ht, h]
  · intro hfc
    subst hfc
    match target with
    | none => simp [resolveCoordinates]
    | some t =>
        rcases hnoacc with h | h
        · simp [resolveCoordinates, h]
        · by_cases ht : t.text = "" <;> simp [resolveCoordinates, ht, h]

/-- Witness for C6 at concrete inputs: with the lookup failing, fallback
`(5,6)` comes back tagged `ai` with `x`/`y` unchanged, and no fallback
gives `null`. -/
theorem resolveCoordinates_fallback_witness :
    (resolveCoordinates ⟨true, none⟩ (some ⟨"Save", none, none⟩)
        (some ⟨5, 6, none, none, none⟩) "shot" =
      some ⟨5, 6, none, none, some CoordinateSource.ai⟩) ∧
    (resolveCoordinates ⟨true, none⟩ (some ⟨"Save", none, none⟩)
        none "shot" = none) :=
  ⟨(resolveCoordinates_fallback ⟨true, none⟩ (some ⟨"Save", none, none⟩)
      (some ⟨5, 6, none, none, none⟩) "shot" (Or.inr rfl)).1 _ rfl,
   (resolveCoordinates_fallback ⟨true, none⟩ (some ⟨"Save", none, none⟩)
      none "shot" (Or.inr rfl)).2 rfl⟩

end SigmaGuide

/-! ## Perceptual hash distance (`imageHash` module, `hashDistance`)

`hashDistance` runs on JavaScript numbers: `parseInt(hash, 16)` produces a
IEEE-754 double, so integers above `2^53` are rounded to the nearest
representable double, and `toString(2)` of a value `≥ 2^64` produces a
binary string longer than 64 characters, which `padStart(64, '0')` leaves
untouched.  The embedding models this faithfully: `doubleRoundNat` is
round-to-nearest-even at a 53-bit mantissa, and out-of-range indexing in
the comparison loop (`bin2[i]` = `undefined`) is modelled with `List.get?`.
-/

namespace SigmaGuide

/-- Number of binary digits of `n` (1 for `n = 0`); `bitLength n - 1` is
`⌊log2 n⌋` for positive `n`. -/
def bitLength (n : Nat) : Nat :=
  (Nat.toDigits 2 n).length

/-- Round a natural number to the nearest IEEE-754 double
(round-to-nearest, ties-to-even, 53-bit mantissa).  Exact below `2^53`. -/
def doubleRoundNat (n : Nat) : Nat :=
  if n < 2 ^ 53 then n
  else
    let b := bitLength n - 1
    let k := b - 52
    let q := n / 2 ^ k
    let r := n % 2 ^ k
    let half := 2 ^ (k - 1)
    let q' := if r > half then q + 1
              else if r < half then q
              else if q % 2 = 0 then q else q + 1
    q' * 2 ^ k

/-- A JavaScript number as produced by `parseInt`: `NaN`, `±Infinity`, or
an integer-valued finite double. -/
inductive JsNum
  | nan
  | posInf
  | negInf
  | val (v : Int)
deriving DecidableEq

/-- Value of a hexadecimal digit. -/
def hexDigitVal (c : Char) : Option Nat :=
  if 48 ≤ c.toNat ∧ c.toNat ≤ 57 then some (c.toNat - 48)
  else if 97 ≤ c.toNat ∧ c.toNat ≤ 102 then some (c.toNat - 87)
  else if 65 ≤ c.toNat ∧ c.toNat ≤ 70 then some (c.toNat - 55)
  else none

/-- Value of the maximal hex-digit prefix of `l`; `none` when the prefix is
empty (`parseInt` returns `NaN`). -/
def hexPrefixVal : List Char → Nat → Bool → Option Nat
  | [], acc, seen => if seen then some acc else none
  | c :: rest, acc, seen =>
      match hexDigitVal c with
      | some d => hexPrefixVal rest (acc * 16 + d) true
      | none => if seen then some acc else none

/-- JS `parseInt(s, 16)`: skip whitespace, optional sign, optional
`0x`/`0X` prefix, then the maximal run of hex digits; the result is the
double nearest to the parsed integer (`±Infinity` beyond the double
range). -/
def jsParseIntHex (s : String) : JsNum :=
  let l := s.toList.dropWhile Char.isWhitespace
  let (neg, l) : Bool × List Char :=
    match l with
    | c :: rest =>
        if c = '-' then (true, rest)
        else if c = '+' then (false, rest)
        else (false, l)
    | [] => (false, l)
  let l :=
    match l with
    | c0 :: c1 :: rest =>
        if c0 = '0' ∧ (c1 = 'x' ∨ c1 = 'X') then rest else l
    | _ => l
  match hexPrefixVal l 0 false with
  | none => JsNum.nan
  | some n =>
      let m := doubleRoundNat n
      -- `m ≥ 2 ^ 1024` (double overflow to Infinity), tested via bit length
      if bitLength m > 1024 then (if neg then JsNum.negInf else JsNum.posInf)
      else JsNum.val (if neg then -(m : Int) else (m : Int))

/-- JS `Number.prototype.toString(2)` on a `parseInt` result, as a
character list. -/
def jsToStringBase2 : JsNum → List Char
  | JsNum.nan => "NaN".toList
  | JsNum.posInf => "Infinity".toList
  | JsNum.negInf => "-Infinity".toList
  | JsNum.val v =>
      if v < 0 then '-' :: Nat.toDigits 2 v.natAbs
      else Nat.toDigits 2 v.natAbs

/-- JS `String.prototype.padStart(n, c)`. -/
def padStartList (l : List Char) (n : Nat) (c : Char) : List Char :=
  List.replicate (n - l.length) c ++ l

/-- The comparison loop of `hashDistance`: for `i` over the indices of
`a`, count positions where `a[i] !== b[i]`; `b[i]` beyond the end of `b`
is `undefined` and always counts as a mismatch. -/
def jsCharMismatchCount (a b : List Char) : Nat :=
  ((List.range a.length).filter fun i => a.get? i ≠ b.get? i).length

/-- `hashDistance` (imageHash module, lines 62–79): maximal distance 64
when a hash is empty (falsy) or lengths differ; otherwise the bitwise
mismatch count over `parseInt(·,16).toString(2).padStart(64,'0')`. -/
def hashDistance (hash1 hash2 : String) : Nat :=
  if hash1 = "" ∨ hash2 = "" ∨ hash1.toList.length ≠ hash2.toList.length then 64
  else
    let bin1 := padStartList (jsToStringBase2 (jsParseIntHex hash1)) 64 '0'
    let bin2 := padStartList (jsToStringBase2 (jsParseIntHex hash2)) 64 '0'
    jsCharMismatchCount bin1 bin2

end SigmaGuide

/-! ## C8: hashDistance on equal-length hashes -/

namespace SigmaGuide

set_option maxRecDepth 8192 in
/-- C8 (failing-input evaluation).  The 17-hex-digit hash
`"10000000000000000"` (value `2^64`, produced by `getImageHash` for an
all-bright frame, since `parseInt(binary, 2).toString(16)` is not padded
down to 16 digits) against `"00000000000000000"` (value 0): the binary
expansion of `2^64` has 65 characters, `padStart(64)` does not truncate,
and the loop compares past the end of the shorter string.  The code
returns 2 one way and 1 the other — neither the true Hamming distance (1)
nor symmetric, contradicting the function's own doc comment
("number of different bits") and the spec's symmetry property. -/
theorem hashDistance_overflow_behavior :
    hashDistance "10000000000000000" "00000000000000000" = 2 ∧
    hashDistance "00000000000000000" "10000000000000000" = 1 := by
  constructor <;> decide

end SigmaGuide

/-! ## Completion classifiers (manual check, click handler, popup check) -/

namespace SigmaGuide

/-- JS `String.prototype.trim` (code-point model). -/
def jsTrim (s : String) : String :=
  String.mk (((s.toList.dropWhile Char.isWhitespace).reverse.dropWhile
    Char.isWhitespace).reverse)

/-- JS `String.prototype.toLowerCase` (ASCII case folding; the texts
involved are ASCII plus emoji). -/
def jsToLower (s : String) : String :=
  String.mk (s.toList.map Char.toLower)

/-- JS `String.prototype.startsWith` (code-point model). -/
def jsStartsWith (s pre : String) : Bool :=
  pre.toList.isPrefixOf s.toList

/-- JS `String.prototype.includes`. -/
def jsIncludes (s pat : String) : Bool :=
  hasOccFrom s.toList pat.toList 0

/-- Completion detection of `triggerManualCheck`
(`reactiveOrchestrator.ts`, lines 307–317). -/
def isCompleteManual (responseText : String) : Bool :=
  let lowerResponse := jsToLower (jsTrim responseText)
  jsStartsWith lowerResponse "done!" ||
  jsStartsWith lowerResponse "done." ||
  jsStartsWith lowerResponse "🎉" ||
  jsStartsWith lowerResponse "complete!" ||
  jsStartsWith lowerResponse "finished!" ||
  jsStartsWith lowerResponse "success!" ||
  (jsIncludes lowerResponse "successfully" && jsIncludes lowerResponse "created") ||
  (jsIncludes lowerResponse "goal" && jsIncludes lowerResponse "achieved")

/-- Completion detection of `handleClickEvent` (lines 607–617); textually
identical to the manual-check classifier. -/
def isCompleteClick (responseText : String) : Bool :=
  let lowerResponse := jsToLower (jsTrim responseText)
  jsStartsWith lowerResponse "done!" ||
  jsStartsWith lowerResponse "done." ||
  jsStartsWith lowerResponse "🎉" ||
  jsStartsWith lowerResponse "complete!" ||
  jsStartsWith lowerResponse "finished!" ||
  jsStartsWith lowerResponse "success!" ||
  (jsIncludes lowerResponse "successfully" && jsIncludes lowerResponse "created") ||
  (jsIncludes lowerResponse "goal" && jsIncludes lowerResponse "achieved")

/-- Completion detection of the background popup check (`checkForPopups`,
lines 800–806): note it has no `success!` prefix case and no
`goal`/`achieved` clause. -/
def isCompletePopup (responseText : String) : Bool :=
  let trimmed := jsToLower (jsTrim responseText)
  jsStartsWith trimmed "done!" ||
  jsStartsWith trimmed "done." ||
  jsStartsWith trimmed "🎉" ||
  jsStartsWith trimmed "complete!" ||
  jsStartsWith trimmed "finished!" ||
  (jsIncludes trimmed "successfully" && jsIncludes trimmed "created")

/-- Modelled from the spec: the completion classifier as the claim states
it — true exactly when the trimmed, lowercased text starts with one of
`done!`, `done.`, `complete!`, `finished!`, `success!`, or the celebration
symbol, or contains both `successfully` and `created`, or contains both
`goal` and `achieved`. -/
def specCompletionClassifier (text : String) : Bool :=
  let t := jsToLower (jsTrim text)
  jsStartsWith t "done!" ||
  jsStartsWith t "done." ||
  jsStartsWith t "complete!" ||
  jsStartsWith t "finished!" ||
  jsStartsWith t "success!" ||
  jsStartsWith t "🎉" ||
  (jsIncludes t "successfully" && jsIncludes t "created") ||
  (jsIncludes t "goal" && jsIncludes t "achieved")

/-- Modelled from the spec, amended for the popup path: same classifier
with the `success!` prefix and the `goal`/`achieved` clause removed. -/
def specReducedCompletionClassifier (text : String) : Bool :=
  let t := jsToLower (jsTrim text)
  jsStartsWith t "done!" ||
  jsStartsWith t "done." ||
  jsStartsWith t "complete!" ||
  jsStartsWith t "finished!" ||
  jsStartsWith t "🎉" ||
  (jsIncludes t "successfully" && jsIncludes t "created")

end SigmaGuide

/-! ## C3: completion classification across the three paths -/

namespace SigmaGuide

/-- Boolean reordering helper for the full classifier (the source lists
the celebration-symbol case third, the spec lists it sixth). -/
theorem boolOrReorderFull (a b c d e f g h : Bool) :
    (a || b || c || d || e || f || g || h) =
    (a || b || d || e || f || c || g || h) := by
  revert a b c d e f g h; decide

/-- Boolean reordering helper for the reduced classifier. -/
theorem boolOrReorderReduced (a b c d e g : Bool) :
    (a || b || c || d || e || g) = (a || b || d || e || c || g) := by
  revert a b c d e g; decide

/-- C3 counterexample.  The claim says every guidance-check path uses the
full classifier; but on `"Success! All set."` the spec classifier (and the
manual-check path) return true while the background popup check's
classifier returns false. -/
theorem completionClassifier_popup_counterexample :
    specCompletionClassifier "Success! All set." = true ∧
    isCompleteManual "Success! All set." = true ∧
    isCompletePopup "Success! All set." = false := by
  refine ⟨?_, ?_, ?_⟩ <;> decide

/-- C3 amended.  The manual-check and click-handler classifiers each equal
the full spec classifier; the background popup check uses the reduced
classifier (no `success!` prefix, no `goal`/`achieved` clause).  All three
are plain functions of the text, hence deterministic. -/
theorem completionClassifiers_amended :
    (∀ s, isCompleteManual s = specCompletionClassifier s) ∧
    (∀ s, isCompleteClick s = specCompletionClassifier s) ∧
    (∀ s, isCompletePopup s = specReducedCompletionClassifier s) := by
  refine ⟨fun s => ?_, fun s => ?_, fun s => ?_⟩
  · simp only [isCompleteManual, specCompletionClassifier]
    exact boolOrReorderFull _ _ _ _ _ _ _ _
  · simp only [isCompleteClick, specCompletionClassifier]
    exact boolOrReorderFull _ _ _ _ _ _ _ _
  · simp only [isCompletePopup, specReducedCompletionClassifier]
    exact boolOrReorderReduced _ _ _ _ _ _

end SigmaGuide

/-! ## JSON values and `JSON.parse` (used by the response parser)

The parser in `src/lib/prompts.ts` calls `JSON.parse` on extracted
fragments; failures are thrown and handled by `catch` blocks, modelled
here as `Option` (`none` = exception). -/

namespace SigmaGuide

/-- A JSON value. -/
inductive Json
  | null
  | bool (b : Bool)
  | num (q : ℚ)
  | str (s : String)
  | arr (l : List Json)
  | obj (l : List (String × Json))

/-- JSON insignificant whitespace (space, tab, newline, carriage return). -/
def jsonWsChar (c : Char) : Bool :=
  c = ' ' || c = '\t' || c = '\n' || c = '\r'

/-- Skip JSON whitespace. -/
def jsonSkipWs (l : List Char) : List Char :=
  l.dropWhile jsonWsChar

/-- Decimal digit test. -/
def isDec (c : Char) : Bool :=
  48 ≤ c.toNat && c.toNat ≤ 57

/-- Parse the body of a JSON string literal (after the opening quote),
handling the standard escapes; returns the decoded characters and the
rest after the closing quote. -/
def parseJsonStrBody : Nat → List Char → Option (List Char × List Char)
  | 0, _ => none
  | _, [] => none
  | fuel + 1, c :: rest =>
      if c = dquote then some ([], rest)
      else if c = '\\' then
        match rest with
        | [] => none
        | e :: rest' =>
            let dec : Option (Char × List Char) :=
              if e = dquote then some (dquote, rest')
              else if e = '\\' then some ('\\', rest')
              else if e = '/' then some ('/', rest')
              else if e = 'b' then some (Char.ofNat 8, rest')
              else if e = 'f' then some (Char.ofNat 12, rest')
              else if e = 'n' then some ('\n', rest')
              else if e = 'r' then some ('\r', rest')
              else if e = 't' then some ('\t', rest')
              else if e = 'u' then
                match rest' with
                | h1 :: h2 :: h3 :: h4 :: rest'' =>
                    match hexDigitVal h1, hexDigitVal h2, hexDigitVal h3,
                        hexDigitVal h4 with
                    | some d1, some d2, some d3, some d4 =>
                        some (Char.ofNat (((d1 * 16 + d2) * 16 + d3) * 16 + d4),
                              rest'')
                    | _, _, _, _ => none
                | _ => none
              else none
            match dec with
            | some (ch, rest'') =>
                match parseJsonStrBody fuel rest'' with
                | some (cs, r) => some (ch :: cs, r)
                | none => none
            | none => none
      else
        match parseJsonStrBody fuel rest with
        | some (cs, r) => some (c :: cs, r)
        | none => none

/-- Parse a JSON number at the head of the list (grammar
`-? int frac? exp?`), as an exact rational. -/
def parseJsonNum (l : List Char) : Option (ℚ × List Char) :=
  let (neg, l1) : Bool × List Char :=
    match l with
    | c :: rest => if c = '-' then (true, rest) else (false, l)
    | [] => (false, l)
  let intDigits := l1.takeWhile isDec
  if intDigits = [] then none
  else if intDigits.length > 1 ∧ intDigits.headI = '0' then none
  else
    let l2 := l1.drop intDigits.length
    let intVal : Nat := intDigits.foldl (fun a c => a * 10 + (c.toNat - 48)) 0
    let (fracVal, fracLen, l3) : ℚ × Nat × List Char :=
      match l2 with
      | c :: rest =>
          if c = '.' then
            let fd := rest.takeWhile isDec
            if fd = [] then (0, 0, l2)
            else
              ((fd.foldl (fun a c => a * 10 + (c.toNat - 48)) 0 : ℚ) /
                 (10 : ℚ) ^ fd.length, fd.length + 1, l2)
          else (0, 0, l2)
      | [] => (0, 0, l2)
    -- a '.' with no digits is a JSON syntax error
    if fracLen = 1 then none
    else
      let l4 := if fracLen = 0 then l3 else l3.drop fracLen
      let (expOk, expVal, l5) : Bool × Int × List Char :=
        match l4 with
        | c :: rest =>
            if c = 'e' ∨ c = 'E' then
              let (eneg, rest1) : Bool × List Char :=
                match rest with
                | d :: r2 =>
                    if d = '-' then (true, r2)
                    else if d = '+' then (false, r2)
                    else (false, rest)
                | [] => (false, rest)
              let ed := rest1.takeWhile isDec
              if ed = [] then (false, 0, l4)
              else
                let ev : Nat := ed.foldl (fun a c => a * 10 + (c.toNat - 48)) 0
                (true, if eneg then -(ev : Int) else (ev : Int),
                 rest1.drop ed.length)
            else (true, 0, l4)
        | [] => (true, 0, l4)
      if !expOk then none
      else
        -- integer fast path (identical value; keeps kernel evaluation of
        -- integer-only JSON free of rational normalisation)
        let mag : ℚ :=
          if fracLen = 0 ∧ expVal = 0 then (intVal : ℚ)
          else ((intVal : ℚ) + fracVal) * (10 : ℚ) ^ expVal
        some (if neg then -mag else mag, l5)

mutual

/-- Parse one JSON value (after skipping whitespace). -/
def parseJsonVal : Nat → List Char → Option (Json × List Char)
  | 0, _ => none
  | fuel + 1, l =>
      match jsonSkipWs l with
      | [] => none
      | c :: rest =>
          if c = dquote then
            match parseJsonStrBody (fuel + 1) rest with
            | some (cs, r) => some (Json.str (String.mk cs), r)
            | none => none
          else if c = lbrace then
            match jsonSkipWs rest with
            | d :: r2 =>
                if d = rbrace then some (Json.obj [], r2)
                else parseJsonMembers fuel (jsonSkipWs rest) []
            | [] => none
          else if c = '[' then
            match jsonSkipWs rest with
            | d :: r2 =>
                if d = ']' then some (Json.arr [], r2)
                else parseJsonElems fuel (jsonSkipWs rest) []
            | [] => none
          else if "true".toList.isPrefixOf (c :: rest) then
            some (Json.bool true, (c :: rest).drop 4)
          else if "false".toList.isPrefixOf (c :: rest) then
            some (Json.bool false, (c :: rest).drop 5)
          else if "null".toList.isPrefixOf (c :: rest) then
            some (Json.null, (c :: rest).drop 4)
          else
            match parseJsonNum (c :: rest) with
            | some (q, r) => some (Json.num q, r)
            | none => none

/-- Parse the members of a JSON object (input positioned at the first
key), accumulating key/value pairs. -/
def parseJsonMembers : Nat → List Char → List (String × Json) →
    Option (Json × List Char)
  | 0, _, _ => none
  | fuel + 1, l, acc =>
      match jsonSkipWs l with
      | c :: rest =>
          if c = dquote then
            match parseJsonStrBody (fuel + 1) rest with
            | some (kcs, r1) =>
                match jsonSkipWs r1 with
                | ':' :: r2 =>
                    match parseJsonVal fuel r2 with
                    | some (v, r3) =>
                        let acc := acc ++ [(String.mk kcs, v)]
                        match jsonSkipWs r3 with
                        | ',' :: r4 => parseJsonMembers fuel r4 acc
                        | d :: r4 =>
                            if d = rbrace then some (Json.obj acc, r4) else none
                        | [] => none
                    | none => none
                | _ => none
            | none => none
          else none
      | [] => none

/-- Parse the elements of a JSON array (input positioned at the first
element). -/
def parseJsonElems : Nat → List Char → List Json → Option (Json × List Char)
  | 0, _, _ => none
  | fuel + 1, l, acc =>
      match parseJsonVal fuel l with
      | some (v, r) =>
          let acc := acc ++ [v]
          match jsonSkipWs r with
          | ',' :: r2 => parseJsonElems fuel r2 acc
          | ']' :: r2 => some (Json.arr acc, r2)
          | _ => none
      | none => none

end

/-- `JSON.parse`: whole-input parse, `none` models a thrown
`SyntaxError`. -/
def jsonParseJs (s : String) : Option Json :=
  match parseJsonVal (s.toList.length + 1) s.toList with
  | some (v, rest) => if jsonSkipWs rest = [] then some v else none
  | none => none

/-- JS truthiness of a JSON value. -/
def jsTruthy : Json → Bool
  | Json.null => false
  | Json.bool b => b
  | Json.num q => q ≠ 0
  | Json.str s => s ≠ ""
  | Json.arr _ => true
  | Json.obj _ => true

/-- JS member access `v.k`: `none` models `undefined` (also for access on
non-objects); for duplicate keys the last occurrence wins, as in a JS
object literal. -/
def jsGet : Json → String → Option Json
  | Json.obj kvs, k => (kvs.reverse.find? (fun kv => kv.1 = k)).map (·.2)
  | _, _ => none

/-- Truthiness of a possibly-`undefined` value. -/
def jsTruthyOpt : Option Json → Bool
  | some v => jsTruthy v
  | none => false

/-- `typeof v === 'number'` on a possibly-`undefined` value. -/
def jsIsNumberOpt : Option Json → Bool
  | some (Json.num _) => true
  | _ => false

/-- String content of a JSON value (the source only reads this off values
that its guards established to be truthy strings). -/
def jsAsString : Json → String
  | Json.str s => s
  | _ => ""

/-- `v.k` as an optional string field (as assigned into
`TargetDescription.type`/`.context`; the interfaces declare these
`string`). -/
def jsGetStrField (v : Json) (k : String) : Option String :=
  match jsGet v k with
  | some (Json.str s) => some s
  | _ => none

/-- `v.k` as an optional numeric field. -/
def jsGetNumField (v : Json) (k : String) : Option ℚ :=
  match jsGet v k with
  | some (Json.num q) => some q
  | _ => none

end SigmaGuide

/-! ## Hand-compiled regular expressions of the parser

Each function below compiles one regex literal of
`src/lib/prompts.ts` into explicit scanning code.  JS `.match` (without
`g`) finds the leftmost match; greedy `[\s\S]*` runs against a trailing
literal reach the last possible occurrence, lazy `[\s\S]*?` runs reach
the first; a greedy `\s*`/`[^x]*` run followed by a token outside the
class is deterministic (no useful backtracking), which is how the
compilations below avoid a general backtracking engine. -/

namespace SigmaGuide

/-- `"key"` as a character pattern. -/
def qkey (k : String) : List Char :=
  dquote :: k.toList ++ [dquote]

/-- Character at index (JS `s[i]`, `none` = `undefined`). -/
def charAt (l : List Char) (i : Nat) : Option Char :=
  l.get? i

/-- Expect the literal `pat` at index `i`; return the index after it. -/
def expectChars (l : List Char) (i : Nat) (pat : List Char) : Option Nat :=
  if pat.isPrefixOf (l.drop i) then some (i + pat.length) else none

/-- Case-insensitive variant (for `/.../i` regexes; ASCII folding). -/
def expectCharsCI (l : List Char) (i : Nat) (pat : List Char) : Option Nat :=
  if pat.map Char.toLower |>.isPrefixOf ((l.drop i).take pat.length
      |>.map Char.toLower) then
    if i + pat.length ≤ l.length then some (i + pat.length) else none
  else none

/-- Length of the whitespace run at `i` (regex `\s*`). -/
def wsRunLen (l : List Char) (i : Nat) : Nat :=
  ((l.drop i).takeWhile Char.isWhitespace).length

/-- Length of the `[,\s]*` run at `i`. -/
def commaWsRunLen (l : List Char) (i : Nat) : Nat :=
  ((l.drop i).takeWhile (fun c => c = ',' || Char.isWhitespace c)).length

/-- Digits run at `i` (regex `(\d+)`): value and end index, `none` when
empty. -/
def digitsRunAt (l : List Char) (i : Nat) : Option (Nat × Nat) :=
  let ds := (l.drop i).takeWhile isDec
  if ds = [] then none
  else some (ds.foldl (fun a c => a * 10 + (c.toNat - 48)) 0, i + ds.length)

/-- Scan all start positions left to right and return the first hit
(leftmost-match semantics of `.match`). -/
def scanFor {α : Type} (f : List Char → Nat → Option α) (s : String) :
    Option α :=
  (List.range (s.toList.length + 1)).findSome? (f s.toList)

/-- Chain test for `/\{[\s\S]*"k1"[\s\S]*"k2"[\s\S]*\}/` anchored after a
`{` at `i - 1`: an occurrence of `"k1"` at or after `i`, then `"k2"`,
then a `}`. -/
def chainKeyKeyBrace (l : List Char) (i : Nat) (q1 q2 : List Char) : Bool :=
  match firstIdxFrom l q1 i with
  | some j =>
      match firstIdxFrom l q2 (j + q1.length) with
      | some k => (l.drop (k + q2.length)).contains rbrace
      | none => false
  | none => false

/-- Compile `/\{[\s\S]*"k1"[\s\S]*"k2"[\s\S]*\}/` (patterns 1–2 of the
main loop): leftmost `{` from which the chain matches; the greedy final
run extends the match to the last `}` of the string. -/
def combinedMatch (text : String) (k1 k2 : String) : Option String :=
  let l := text.toList
  match (List.range l.length).find? (fun i =>
      charAt l i = some lbrace && chainKeyKeyBrace l (i + 1) (qkey k1) (qkey k2)) with
  | some i =>
      match lastIdxOfChar l rbrace with
      | some e => some (String.mk (sliceList l i (e + 1)))
      | none => none
  | none => none

/-- Compile `/\{"key"\s*:\s*\{[^}]+\}\}/` anchored at `i` (patterns 3 and
5, and target pattern 1): the greedy `[^}]+` run ends at the first `}`,
which must be followed by a second `}`. -/
def nestedKeyMatchAt (key : String) (l : List Char) (i : Nat) :
    Option String :=
  match expectChars l i (lbrace :: qkey key) with
  | none => none
  | some p1 =>
      let p2 := p1 + wsRunLen l p1
      match expectChars l p2 [':'] with
      | none => none
      | some p3 =>
          let p4 := p3 + wsRunLen l p3
          match expectChars l p4 [lbrace] with
          | none => none
          | some p5 =>
              let run := ((l.drop p5).takeWhile (fun c => c != rbrace)).length
              if run = 0 then none
              else
                match expectChars l (p5 + run) [rbrace, rbrace] with
                | some e => some (String.mk (sliceList l i e))
                | none => none

/-- Compile `/\{[^{}]*"key"[^{}]*\}/` anchored at `i` (patterns 4 and 6):
the brace-free segment after `{` must end at a `}` and contain `"key"`;
returns `(start, stop)`. -/
def flatKeyMatchAt (q : List Char) (l : List Char) (i : Nat) :
    Option (Nat × Nat) :=
  if charAt l i = some lbrace then
    let seg := (l.drop (i + 1)).takeWhile (fun c => c != lbrace && c != rbrace)
    let q1 := i + 1 + seg.length
    if charAt l q1 = some rbrace && hasOccFrom seg q 0 then some (i, q1 + 1)
    else none
  else none

/-- Leftmost match of `/\{[^{}]*"key"[^{}]*\}/`. -/
def flatKeyMatch (text : String) (key : String) : Option String :=
  scanFor (fun l i => (flatKeyMatchAt (qkey key) l i).map
    (fun se => String.mk (sliceList l se.1 se.2))) text

/-- Optional group `(?:[,\s]*"key"\s*:\s*(\d+))?` of the coordinate-field
regex, anchored at `i` (case-insensitive). -/
def optNumGroup (l : List Char) (i : Nat) (key : String) :
    Option (Nat × Nat) :=
  let p := i + commaWsRunLen l i
  match expectCharsCI l p (qkey key) with
  | none => none
  | some p1 =>
      let p2 := p1 + wsRunLen l p1
      match expectChars l p2 [':'] with
      | none => none
      | some p3 => digitsRunAt l (p3 + wsRunLen l p3)

/-- Compile
`/"x"\s*:\s*(\d+)[,\s]*"y"\s*:\s*(\d+)(?:[,\s]*"width"\s*:\s*(\d+))?(?:[,\s]*"height"\s*:\s*(\d+))?/i`
anchored at `i`: the numeric captures `(x, y, width?, height?)`. -/
def coordsFieldsAt (l : List Char) (i : Nat) :
    Option (Nat × Nat × Option Nat × Option Nat) :=
  match expectCharsCI l i (qkey "x") with
  | none => none
  | some p1 =>
      match expectChars l (p1 + wsRunLen l p1) [':'] with
      | none => none
      | some p3 =>
          match digitsRunAt l (p3 + wsRunLen l p3) with
          | none => none
          | some (xv, p5) =>
              let p6 := p5 + commaWsRunLen l p5
              match expectCharsCI l p6 (qkey "y") with
              | none => none
              | some p7 =>
                  match expectChars l (p7 + wsRunLen l p7) [':'] with
                  | none => none
                  | some p9 =>
                      match digitsRunAt l (p9 + wsRunLen l p9) with
                      | none => none
                      | some (yv, p11) =>
                          let (wv, p12) : Option Nat × Nat :=
                            match optNumGroup l p11 "width" with
                            | some (v, p) => (some v, p)
                            | none => (none, p11)
                          let hv : Option Nat :=
                            match optNumGroup l p12 "height" with
                            | some (v, _) => some v
                            | none => none
                          some (xv, yv, wv, hv)

/-- Leftmost match of the coordinate-field regex over a string. -/
def coordsFieldExtract (s : String) :
    Option (Nat × Nat × Option Nat × Option Nat) :=
  scanFor coordsFieldsAt s

/-- Compile `/\{[\s\S]*"coordinates"[\s\S]*\}/` (the whole-JSON match of
`parseLegacyCoordinates`): leftmost `{` with `"coordinates"` and a later
`}`; greedy to the last `}`. -/
def coordsSingleMatch (text : String) : Option String :=
  let l := text.toList
  let q := qkey "coordinates"
  match (List.range l.length).find? (fun i =>
      charAt l i = some lbrace &&
      (match firstIdxFrom l q (i + 1) with
       | some j => (l.drop (j + q.length)).contains rbrace
       | none => false)) with
  | some i =>
      match lastIdxOfChar l rbrace with
      | some e => some (String.mk (sliceList l i (e + 1)))
      | none => none
  | none => none

/-- Compile `/\{"coordinates"\s*:\s*\{[\s\S]*$/` anchored at `i`: prefix
match, extending to the end of the string. -/
def partialCoordsAt (l : List Char) (i : Nat) : Option String :=
  match expectChars l i (lbrace :: qkey "coordinates") with
  | none => none
  | some p1 =>
      match expectChars l (p1 + wsRunLen l p1) [':'] with
      | none => none
      | some p3 =>
          match expectChars l (p3 + wsRunLen l p3) [lbrace] with
          | none => none
          | some _ => some (String.mk (l.drop i))

/-- Leftmost match of the partial-JSON coordinate pattern. -/
def partialCoordsMatch (text : String) : Option String :=
  scanFor partialCoordsAt text

/-- Compile the alternative coordinate format
`/coordinates?[:\s]+x[=:\s]+(\d+)[,\s]+y[=:\s]+(\d+)(?:[,\s]+width[=:\s]+(\d+))?(?:[,\s]+height[=:\s]+(\d+))?/i`
anchored at `i`. -/
def altCoordsAt (l : List Char) (i : Nat) :
    Option (Nat × Nat × Option Nat × Option Nat) :=
  match expectCharsCI l i "coordinate".toList with
  | none => none
  | some p1 =>
      -- optional `s?`; the following class `[:\s]` cannot match `s`,
      -- so the greedy option is deterministic
      let p2 := match expectCharsCI l p1 ['s'] with
                | some p => p
                | none => p1
      let sepLen (p : Nat) : Nat :=
        ((l.drop p).takeWhile (fun c => c = ':' || Char.isWhitespace c)).length
      let eqLen (p : Nat) : Nat :=
        ((l.drop p).takeWhile
          (fun c => c = '=' || c = ':' || Char.isWhitespace c)).length
      let cwLen (p : Nat) : Nat :=
        ((l.drop p).takeWhile (fun c => c = ',' || Char.isWhitespace c)).length
      let r3 := sepLen p2
      if r3 = 0 then none
      else
        match expectCharsCI l (p2 + r3) ['x'] with
        | none => none
        | some p4 =>
            let r5 := eqLen p4
            if r5 = 0 then none
            else
              match digitsRunAt l (p4 + r5) with
              | none => none
              | some (xv, p6) =>
                  let r7 := cwLen p6
                  if r7 = 0 then none
                  else
                    match expectCharsCI l (p6 + r7) ['y'] with
                    | none => none
                    | some p8 =>
                        let r9 := eqLen p8
                        if r9 = 0 then none
                        else
                          match digitsRunAt l (p8 + r9) with
                          | none => none
                          | some (yv, p10) =>
                              let optGrp (p : Nat) (key : String) :
                                  Option (Nat × Nat) :=
                                let rc := cwLen p
                                if rc = 0 then none
                                else
                                  match expectCharsCI l (p + rc) key.toList with
                                  | none => none
                                  | some pk =>
                                      let re := eqLen pk
                                      if re = 0 then none
                                      else digitsRunAt l (pk + re)
                              let (wv, p12) : Option Nat × Nat :=
                                match optGrp p10 "width" with
                                | some (v, p) => (some v, p)
                                | none => (none, p10)
                              let hv : Option Nat :=
                                match optGrp p12 "height" with
                                | some (v, _) => some v
                                | none => none
                              some (xv, yv, wv, hv)

/-- Leftmost match of the alternative coordinate format. -/
def altCoordsExtract (s : String) :
    Option (Nat × Nat × Option Nat × Option Nat) :=
  scanFor altCoordsAt s

end SigmaGuide

/-! ## Target-inference matchers and text-cleanup removals -/

namespace SigmaGuide

/-- Occurrence start indices of `q` inside `seg`. -/
def occIdxs (seg q : List Char) : List Nat :=
  (List.range (seg.length + 1)).filter fun j => q.isPrefixOf (seg.drop j)

/-- Compile `/\{[^{}]*"target"\s*:\s*\{([^}]+)\}[^}{]*\}/` anchored at `i`
(target pattern 2).  After `"target"` the regex allows only `\s*:\s*`
before the nested `{`, so the chosen occurrence must sit at the end of the
brace-free segment; greedy backtracking tries later occurrences first. -/
def targetNestedFlatAt (l : List Char) (i : Nat) : Option String :=
  if charAt l i = some lbrace then
    let seg := (l.drop (i + 1)).takeWhile (fun c => c != lbrace && c != rbrace)
    let segEnd := i + 1 + seg.length
    if charAt l segEnd = some lbrace then
      let q := qkey "target"
      ((occIdxs seg q).reverse.findSome? fun j =>
        -- after the occurrence: `\s*:\s*` filling exactly up to the `{`
        let a := i + 1 + j + q.length
        let a1 := a + wsRunLen l a
        match expectChars l a1 [':'] with
        | none => none
        | some a2 =>
            if a2 + wsRunLen l a2 = segEnd then
              -- `\{([^}]+)\}` then `[^{}]*\}`
              let p5 := segEnd + 1
              let run := ((l.drop p5).takeWhile (fun c => c != rbrace)).length
              if run = 0 then none
              else
                match expectChars l (p5 + run) [rbrace] with
                | none => none
                | some p6 =>
                    let seg2 := (l.drop p6).takeWhile
                      (fun c => c != lbrace && c != rbrace)
                    match expectChars l (p6 + seg2.length) [rbrace] with
                    | some e => some (String.mk (sliceList l i e))
                    | none => none
            else none)
    else none
  else none

/-- Try the alternatives of a group like `(?:click|tap|select|press)` in
order at position `i` (case-insensitive). -/
def tryAltsCI (l : List Char) (i : Nat) : List String → Option Nat
  | [] => none
  | w :: ws =>
      match expectCharsCI l i w.toList with
      | some p => some p
      | none => tryAltsCI l i ws

/-- Is `c` one of `'`/`"` (the class `['"]`)? -/
def isQuoteChar (c : Char) : Bool :=
  c = squote || c = dquote

/-- Compile `/(?:click|tap|select|press)\s+(?:the\s+)?['"]([^'"]+)['"]/i`
anchored at `i`; returns capture group 1. -/
def verbTargetAt (l : List Char) (i : Nat) : Option String :=
  match tryAltsCI l i ["click", "tap", "select", "press"] with
  | none => none
  | some p1 =>
      let w1 := wsRunLen l p1
      if w1 = 0 then none
      else
        let quoted (p : Nat) : Option String :=
          match charAt l p with
          | some c =>
              if isQuoteChar c then
                let run := (l.drop (p + 1)).takeWhile (fun d => !isQuoteChar d)
                if run.length = 0 then none
                else
                  match charAt l (p + 1 + run.length) with
                  | some c2 => if isQuoteChar c2 then some (String.mk run)
                               else none
                  | none => none
              else none
          | none => none
        let p2 := p1 + w1
        -- optional `(?:the\s+)?`, greedy with fallback to skipping it
        let withThe : Option String :=
          match expectCharsCI l p2 "the".toList with
          | some p3 =>
              let w2 := wsRunLen l p3
              if w2 = 0 then none else quoted (p3 + w2)
          | none => none
        match withThe with
        | some r => some r
        | none => quoted p2

/-- Compile `/['"]([^'"]+)['"]\s+(?:button|link|menu|option|tab)/i`
anchored at `i`; returns capture group 1. -/
def nounTargetAt (l : List Char) (i : Nat) : Option String :=
  match charAt l i with
  | some c =>
      if isQuoteChar c then
        let run := (l.drop (i + 1)).takeWhile (fun d => !isQuoteChar d)
        if run.length = 0 then none
        else
          match charAt l (i + 1 + run.length) with
          | some c2 =>
              if isQuoteChar c2 then
                let p := i + 1 + run.length + 1
                let w := wsRunLen l p
                if w = 0 then none
                else
                  match tryAltsCI l (p + w)
                      ["button", "link", "menu", "option", "tab"] with
                  | some _ => some (String.mk run)
                  | none => none
              else none
          | none => none
      else none
  | none => none

/-- Case-insensitive substring test (for `/.../i` used as a boolean). -/
def jsIncludesCI (s pat : String) : Bool :=
  hasOccFrom (s.toList.map Char.toLower) (pat.toList.map Char.toLower) 0

/-- Compile `/Command\+Q|⌘\+Q|Cmd\+Q/i` used as a test. -/
def hasCommandQ (text : String) : Bool :=
  jsIncludesCI text "Command+Q" || jsIncludesCI text "⌘+Q" ||
  jsIncludesCI text "Cmd+Q"

/-- Compile `/(?:quit|close)\s+(?:the\s+)?([A-Z][a-zA-Z]+)/i` anchored at
`i`; with the `i` flag `[A-Z]` also matches lowercase, and when the
optional `the` leaves no two-letter word the engine backtracks and
captures `the` itself. -/
def appNameAt (l : List Char) (i : Nat) : Option String :=
  match tryAltsCI l i ["quit", "close"] with
  | none => none
  | some p1 =>
      let w1 := wsRunLen l p1
      if w1 = 0 then none
      else
        let word (p : Nat) : Option String :=
          match charAt l p with
          | some c =>
              if c.isAlpha then
                let run := (l.drop (p + 1)).takeWhile Char.isAlpha
                if run.length = 0 then none
                else some (String.mk (c :: run))
              else none
          | none => none
        let p2 := p1 + w1
        let withThe : Option String :=
          match expectCharsCI l p2 "the".toList with
          | some p3 =>
              let w2 := wsRunLen l p3
              if w2 = 0 then none else word (p3 + w2)
          | none => none
        match withThe with
        | some r => some r
        | none => word p2

/-- Compile `/"key"\s*:\s*"([^"]+)"/` anchored at `i` (field extraction in
the target catch branch); exact case, `[^"]` excludes only the double
quote. -/
def strFieldAt (key : String) (l : List Char) (i : Nat) : Option String :=
  match expectChars l i (qkey key) with
  | none => none
  | some p1 =>
      match expectChars l (p1 + wsRunLen l p1) [':'] with
      | none => none
      | some p3 =>
          match expectChars l (p3 + wsRunLen l p3) [dquote] with
          | none => none
          | some p5 =>
              let run := (l.drop p5).takeWhile (fun c => c != dquote)
              if run.length = 0 then none
              else
                match charAt l (p5 + run.length) with
                | some c => if c = dquote then some (String.mk run) else none
                | none => none

/-- Leftmost match of the string-field regex. -/
def strFieldExtract (s : String) (key : String) : Option String :=
  scanFor (strFieldAt key) s

/-! ### Global-removal machinery (`.replace(re, '')` with `g`) -/

/-- Scan `l`, removing every leftmost match reported by `matchAt` (which
returns the exclusive end of a match starting at the given index) and
resuming after it — the semantics of a global replace with the empty
string. -/
def removeAllGo (matchAt : List Char → Nat → Option Nat) :
    Nat → List Char → Nat → List Char
  | 0, _, _ => []
  | fuel + 1, l, i =>
      match charAt l i with
      | none => []
      | some c =>
          match matchAt l i with
          | some e =>
              if e > i then removeAllGo matchAt fuel l e
              else c :: removeAllGo matchAt fuel l (i + 1)
          | none => c :: removeAllGo matchAt fuel l (i + 1)

/-- Global removal over a string. -/
def removeAll (matchAt : List Char → Nat → Option Nat) (s : String) :
    String :=
  String.mk (removeAllGo matchAt (s.toList.length + 1) s.toList 0)

/-- The ` ``` ` fence as characters. -/
def fenceChars : List Char := [btick, btick, btick]

/-- Compile `/```json\s*```/g` at `i`. -/
def emptyJsonFenceAt (l : List Char) (i : Nat) : Option Nat :=
  match expectChars l i (fenceChars ++ "json".toList) with
  | none => none
  | some p => expectChars l (p + wsRunLen l p) fenceChars

/-- Compile `/```\s*```/g` at `i`. -/
def emptyFenceAt (l : List Char) (i : Nat) : Option Nat :=
  match expectChars l i fenceChars with
  | none => none
  | some p => expectChars l (p + wsRunLen l p) fenceChars

/-- Compile `/```json\s*\{[\s\S]*?\}\s*```/g` at `i`: lazy body up to the
first `}` whose trailing whitespace is followed by a closing fence. -/
def fencedJsonObjAt (l : List Char) (i : Nat) : Option Nat :=
  match expectChars l i (fenceChars ++ "json".toList) with
  | none => none
  | some p =>
      match expectChars l (p + wsRunLen l p) [lbrace] with
      | none => none
      | some p1 =>
          ((List.range (l.length + 1)).findSome? fun q =>
            if q < p1 then none
            else if charAt l q = some rbrace then
              expectChars l (q + 1 + wsRunLen l (q + 1)) fenceChars
            else none)

/-- Compile `/```\s*\{[\s\S]*?\}\s*```/g` at `i`. -/
def fencedObjAt (l : List Char) (i : Nat) : Option Nat :=
  match expectChars l i fenceChars with
  | none => none
  | some p =>
      match expectChars l (p + wsRunLen l p) [lbrace] with
      | none => none
      | some p1 =>
          ((List.range (l.length + 1)).findSome? fun q =>
            if q < p1 then none
            else if charAt l q = some rbrace then
              expectChars l (q + 1 + wsRunLen l (q + 1)) fenceChars
            else none)

/-- Compile `/\{\s*\}/g` at `i`. -/
def emptyObjAt (l : List Char) (i : Nat) : Option Nat :=
  match expectChars l i [lbrace] with
  | none => none
  | some p => expectChars l (p + wsRunLen l p) [rbrace]

/-- Compile `/^\s*```\s*$/gm` at `i`: start-of-line anchor, whitespace
(possibly spanning lines), a fence, then whitespace up to a line end; the
greedy trailing run ends at the furthest line boundary inside it. -/
def fenceLineAt (l : List Char) (i : Nat) : Option Nat :=
  let atLineStart := i = 0 ∨ charAt l (i - 1) = some '\n'
  if atLineStart then
    match expectChars l (i + wsRunLen l i) fenceChars with
    | none => none
    | some p2 =>
        let r := wsRunLen l p2
        ((List.range (r + 1)).reverse.findSome? fun d =>
          let q := p2 + d
          if q = l.length ∨ charAt l q = some '\n' then some q else none)
  else none

/-- Compile `/\{[^{}]*"(?:target|coordinates)"[^{}]*\}/g` at `i` (the
regex fallback of `cleanJsonFromText`). -/
def flatEitherKeyAt (l : List Char) (i : Nat) : Option Nat :=
  match flatKeyMatchAt (qkey "target") l i with
  | some (_, e) => some e
  | none =>
      match flatKeyMatchAt (qkey "coordinates") l i with
      | some (_, e) => some e
      | none => none

/-- Compile `/\s*\{[\s\S]*?"(?:target|coordinates)"[\s\S]*?\}\s*/g` at
`i` (the final sweep of `cleanJsonFromText`): leading whitespace, a `{`,
lazily up to the first `"target"`/`"coordinates"`, lazily up to the first
following `}`, then trailing whitespace. -/
def lazyKeyedAt (l : List Char) (i : Nat) : Option Nat :=
  let p := i + wsRunLen l i
  match expectChars l p [lbrace] with
  | none => none
  | some p1 =>
      let qT := qkey "target"
      let qC := qkey "coordinates"
      let jT := firstIdxFrom l qT p1
      let jC := firstIdxFrom l qC p1
      let firstKey : Option (Nat × Nat) :=
        match jT, jC with
        | some a, some b =>
            if a ≤ b then some (a, qT.length) else some (b, qC.length)
        | some a, none => some (a, qT.length)
        | none, some b => some (b, qC.length)
        | none, none => none
      match firstKey with
      | none => none
      | some (j, qlen) =>
          match firstIdxFrom l [rbrace] (j + qlen) with
          | some q => some (q + 1 + wsRunLen l (q + 1))
          | none => none

end SigmaGuide

/-! ## `cleanJsonFromText` and the parse functions -/

namespace SigmaGuide

/-- JS `lastIndexOf` of a substring: greatest occurrence index, `-1` if
absent. -/
def jsLastIndexOf (s pat : String) : Int :=
  match (occIdxs s.toList pat.toList).getLast? with
  | some i => (i : Int)
  | none => -1

/-- JS `lastIndexOf(c, fromIndex)` for a single character: greatest
occurrence index at or before `fromIndex` (negative `fromIndex` clamps to
0, as in the spec). -/
def jsLastIndexOfCharFrom (l : List Char) (c : Char) (fromIdx : Int) : Int :=
  let f : Nat := min (max fromIdx 0).toNat l.length
  match ((List.range (f + 1)).filter fun i => charAt l i = some c).getLast? with
  | some i => (i : Int)
  | none => -1

/-- The brace-matching scan of `cleanJsonFromText` (string-literal and
escape aware); `i` is the absolute index of the head of the list, and the
result is `jsonEndIndex` (exclusive), `none` for "no matching brace". -/
def braceScanGo : List Char → Nat → Int → Bool → Bool → Option Nat
  | [], _, _, _, _ => none
  | c :: rest, i, braceCount, inString, escapeNext =>
      if escapeNext then braceScanGo rest (i + 1) braceCount inString false
      else if c = '\\' then braceScanGo rest (i + 1) braceCount inString true
      else if c = dquote then braceScanGo rest (i + 1) braceCount (!inString) escapeNext
      else if !inString then
        if c = lbrace then braceScanGo rest (i + 1) (braceCount + 1) inString escapeNext
        else if c = rbrace then
          if braceCount - 1 = 0 then some (i + 1)
          else braceScanGo rest (i + 1) (braceCount - 1) inString escapeNext
        else braceScanGo rest (i + 1) braceCount inString escapeNext
      else braceScanGo rest (i + 1) braceCount inString escapeNext

/-- `cleanJsonFromText` (`prompts.ts` parser section, lines 260–352):
locate the last `{` before the last `"target"`/`"coordinates"`, find its
matching `}` with the brace scan, validate with `JSON.parse`, splice the
fragment out (regex fallback when malformed), then sweep remaining
keyed-JSON runs, code fences and empty objects. -/
def cleanJsonFromText (text : String) : String :=
  let cleaned := jsTrim text
  let l := cleaned.toList
  let targetIndex := jsLastIndexOf cleaned (String.mk (qkey "target"))
  let coordinatesIndex := jsLastIndexOf cleaned (String.mk (qkey "coordinates"))
  let jsonStartIndex : Int :=
    max (jsLastIndexOfCharFrom l lbrace targetIndex)
        (jsLastIndexOfCharFrom l lbrace coordinatesIndex)
  let cleaned :=
    if jsonStartIndex ≥ 0 then
      let si := jsonStartIndex.toNat
      match braceScanGo (l.drop si) si 0 false false with
      | some je =>
          if je > si then
            let jsonCandidate := String.mk (sliceList l si je)
            match jsonParseJs jsonCandidate with
            | some parsed =>
                if jsTruthyOpt (jsGet parsed "target") ||
                    jsTruthyOpt (jsGet parsed "coordinates") then
                  let before := jsTrim (String.mk (sliceList l 0 si))
                  let after := jsTrim (String.mk (l.drop je))
                  jsTrim (before ++ " " ++ after)
                else cleaned
            | none => removeAll flatEitherKeyAt cleaned
          else removeAll flatEitherKeyAt cleaned
      | none => removeAll flatEitherKeyAt cleaned
    else cleaned
  let cleaned := jsTrim (removeAll lazyKeyedAt cleaned)
  jsTrim (removeAll emptyObjAt (removeAll fencedObjAt (removeAll fencedJsonObjAt
    (removeAll emptyFenceAt (removeAll emptyJsonFenceAt cleaned)))))

/-- Leftmost match of `/\{"key"\s*:\s*\{[^}]+\}\}/`. -/
def nestedKeyMatch (text : String) (key : String) : Option String :=
  scanFor (nestedKeyMatchAt key) text

/-- The `parsed.target && parsed.target.text` extraction shared by the
main loop (lines 419–426) and `parseTargetFromResponse` (lines 124–130),
which spell it identically. -/
def extractTargetFromJson (parsed : Json) : Option TargetDescription :=
  match jsGet parsed "target" with
  | some t =>
      if jsTruthy t then
        match jsGet t "text" with
        | some tx =>
            if jsTruthy tx then
              some { text := jsAsString tx, type := jsGetStrField t "type",
                     context := jsGetStrField t "context" }
            else none
        | none => none
      else none
  | none => none

/-- The `parsed.coordinates && typeof parsed.coordinates.x === 'number'`
extraction (lines 428–436 and 220–227).  The `x` guard established a
number; the interface declares the remaining fields numeric, so the
`getD 0` filler is unreachable on interface-conforming values. -/
def extractCoordsFromJson (parsed : Json) : Option ParsedCoordinates :=
  match jsGet parsed "coordinates" with
  | some c =>
      if jsTruthy c && jsIsNumberOpt (jsGet c "x") then
        some { x := (jsGetNumField c "x").getD 0,
               y := (jsGetNumField c "y").getD 0,
               width := jsGetNumField c "width",
               height := jsGetNumField c "height",
               coordinateSource := none }
      else none
  | none => none

/-- Coordinates record from the numeric captures of a coordinate-field
regex (`parseInt(..., 10)` on each group). -/
def mkCoordsFromFields (f : Nat × Nat × Option Nat × Option Nat) :
    ParsedCoordinates :=
  { x := (f.1 : ℚ), y := (f.2.1 : ℚ),
    width := f.2.2.1.map (fun n => (n : ℚ)),
    height := f.2.2.2.map (fun n => (n : ℚ)),
    coordinateSource := none }

/-- `parseTargetFromResponse` (lines 109–191): the two JSON-ish target
patterns with `JSON.parse` and a regex-field fallback, then quoted-text
inference after click/tap/select/press or before button/link/menu/…, then
the Command+Q menu-target special case. -/
def parseTargetFromResponse (text : String) : Option TargetDescription :=
  let tryPat (m : Option String) : Option TargetDescription :=
    m.bind fun mm =>
      match jsonParseJs mm with
      | some parsed => extractTargetFromJson parsed
      | none =>
          match strFieldExtract mm "text" with
          | some tx =>
              some { text := tx, type := strFieldExtract mm "type",
                     context := strFieldExtract mm "context" }
          | none => none
  match [nestedKeyMatch text "target",
         scanFor targetNestedFlatAt text].findSome? tryPat with
  | some t => some t
  | none =>
      match scanFor verbTargetAt text with
      | some m1 => some { text := m1 }
      | none =>
          match scanFor nounTargetAt text with
          | some m1 => some { text := m1 }
          | none =>
              if hasCommandQ text then
                match scanFor appNameAt text with
                | some appName =>
                    some { text := appName, type := some "menu",
                           context := some "top menu bar" }
                | none =>
                    if jsIncludesCI text "quit" then
                      some { text := "Quit", type := some "menu",
                             context := some "app menu" }
                    else none
              else none

/-- `parseLegacyCoordinates` (lines 197–254): whole-JSON match (with a
partial-JSON recovery when absent), `JSON.parse` with a regex fallback,
then the `coordinates: x=…, y=…` alternative format. -/
def parseLegacyCoordinates (text : String) : Option ParsedCoordinates :=
  let jsonMatch := coordsSingleMatch text
  let viaPartial : Option ParsedCoordinates :=
    match jsonMatch with
    | some _ => none
    | none =>
        (partialCoordsMatch text).bind fun pm =>
          (coordsFieldExtract pm).map mkCoordsFromFields
  match viaPartial with
  | some r => some r
  | none =>
      let viaJson : Option ParsedCoordinates :=
        match jsonMatch with
        | none => none
        | some m =>
            match jsonParseJs m with
            | some parsed => extractCoordsFromJson parsed
            | none => (coordsFieldExtract m).map mkCoordsFromFields
      match viaJson with
      | some r => some r
      | none => (altCoordsExtract text).map mkCoordsFromFields

/-- `match[0].replace(/'/g, '"')` (single-quote repair attempt). -/
def fixSingleQuotes (s : String) : String :=
  String.mk (s.toList.map fun c => if c = squote then dquote else c)

/-- The post-extraction cleanup chain (lines 406–413, repeated at
491–498 and 509–515): empty fences, fenced JSON objects, empty objects,
standalone fence lines, then trim. -/
def extraCleanup (s : String) : String :=
  jsTrim (removeAll fenceLineAt (removeAll emptyObjAt (removeAll fencedObjAt
    (removeAll fencedJsonObjAt (removeAll emptyFenceAt
      (removeAll emptyJsonFenceAt s))))))

/-- Removal of the matched fragment from the display text (lines
393–403, duplicated verbatim in the catch branch at 448–457): splice at
`indexOf`, trim both sides, join with a single space, then the cleanup
chain. -/
def removedMatchText (text m : String) : String :=
  let base :=
    match firstIdxFrom text.toList m.toList 0 with
    | some mi =>
        let before := jsTrim (String.mk (sliceList text.toList 0 mi))
        let after := jsTrim (String.mk (text.toList.drop (mi + m.toList.length)))
        jsTrim (before ++ " " ++ after)
    | none => cleanJsonFromText text
  extraCleanup base

/-- The try/catch body of the main pattern loop (lines 377–480): parse
the matched fragment (with a single-quote repair when the value is
falsy), build the result when a target or coordinates were extracted
(`none` = continue the loop); on a parse exception, the regex coordinate
fallback. -/
def tryMatchedJson (text m : String) : Option ParsedResponse :=
  let viaParse : Option (Option ParsedResponse) :=
    match jsonParseJs m with
    | none => none
    | some v =>
        match (if jsTruthy v then some v else jsonParseJs (fixSingleQuotes m)) with
        | none => none
        | some parsed =>
            let cleanedText := removedMatchText text m
            let resText := if cleanedText = "" then jsTrim text else cleanedText
            let tgt := extractTargetFromJson parsed
            let coords := extractCoordsFromJson parsed
            if tgt.isSome || coords.isSome then
              some (some { text := resText, target := tgt, coordinates := coords })
            else some none
  match viaParse with
  | some r => r
  | none =>
      match coordsFieldExtract m with
      | some f =>
          let cleanedText := removedMatchText text m
          some { text := if cleanedText = "" then jsTrim text else cleanedText,
                 coordinates := some (mkCoordsFromFields f) }
      | none => none

/-- The `for (const pattern of jsonPatterns)` loop. -/
def loopJsonPats (text : String) : List (Option String) → Option ParsedResponse
  | [] => none
  | m :: rest =>
      match m with
      | none => loopJsonPats text rest
      | some mm =>
          match tryMatchedJson text mm with
          | some r => some r
          | none => loopJsonPats text rest

/-- `parseCoordinatesFromResponse` (lines 358–517): six JSON patterns in
priority order, then the separate target/legacy-coordinate formats with
`cleanJsonFromText`, then plain text with the cleanup chain. -/
def parseCoordinatesFromResponse (responseText : String) : ParsedResponse :=
  let text := jsTrim responseText
  let pats : List (Option String) := [
    combinedMatch text "target" "coordinates",
    combinedMatch text "coordinates" "target",
    nestedKeyMatch text "target",
    flatKeyMatch text "target",
    nestedKeyMatch text "coordinates",
    flatKeyMatch text "coordinates" ]
  match loopJsonPats text pats with
  | some r => r
  | none =>
      let target := parseTargetFromResponse text
      let coordinates := parseLegacyCoordinates text
      if target.isSome || coordinates.isSome then
        let cleaned0 := cleanJsonFromText text
        let cleaned1 := if cleaned0 = "" then text else cleaned0
        { text := extraCleanup cleaned1, target := target,
          coordinates := coordinates }
      else
        { text := extraCleanup text }

end SigmaGuide

/-! ## C2: parser round-trip on the spec's example input -/

namespace SigmaGuide

/-- The prose part of the spec's parser round-trip example. -/
def c2Prose : String :=
  "Click the " ++ String.mk [squote] ++ "Save" ++ String.mk [squote] ++ " button."

/-- The spec's parser round-trip input: the prose followed by the inline
JSON fragment with both a target and coordinates. -/
def c2Input : String :=
  c2Prose ++
  " \x7b\"target\":\x7b\"text\":\"Save\",\"type\":\"button\"\x7d,\"coordinates\":\x7b\"x\":100,\"y\":200,\"width\":80,\"height\":30\x7d\x7d"

set_option maxRecDepth 100000 in
/-- C2. On the round-trip input, `parseCoordinatesFromResponse` returns a
display text containing the prose `Click the 'Save' button.` with no brace
character left, `target.text = "Save"` (with type `button`), and
coordinates exactly `(x 100, y 200, width 80, height 30)`. -/
theorem parseCoordinatesFromResponse_roundTrip :
    jsIncludes (parseCoordinatesFromResponse c2Input).text c2Prose = true ∧
    (parseCoordinatesFromResponse c2Input).text.toList.contains lbrace = false ∧
    (parseCoordinatesFromResponse c2Input).text.toList.contains rbrace = false ∧
    (parseCoordinatesFromResponse c2Input).target =
      some ⟨"Save", some "button", none⟩ ∧
    (parseCoordinatesFromResponse c2Input).coordinates =
      some ⟨100, 200, some 80, some 30, none⟩ := by
  decide

end SigmaGuide

/-! ## The reactive orchestrator state machine

State fields mirror the mutable fields of `ReactiveOrchestrator`
(`currentGoal`, `lastGuidance`, `lastScreenshot`, `isProcessing`); the
external world is passed in (`capture` = result of `captureScreen`,
`resp` = result of the model call that would be issued) and observable
actions come back in an `Effects` record (counts of capture/model calls,
chat messages added, whether task monitoring was started).  Presentation
calls (highlights, speech bubbles, loading indicators) are fire-and-forget
externals and are not recorded. -/

namespace SigmaGuide

/-- Guidance mode setting (`settingsStore`): `steps` or `single`. -/
inductive GuidanceMode
  | steps
  | single
deriving DecidableEq

/-- The orchestrator's mutable state. -/
structure OrchState where
  currentGoal : Option String
  lastGuidance : Option String
  lastScreenshot : Option String
  isProcessing : Bool
deriving DecidableEq

/-- Observable effects of one operation. -/
structure Effects where
  captureCalls : Nat := 0
  analyzeCalls : Nat := 0
  quickAnswerCalls : Nat := 0
  messages : List String := []
  monitoringStarted : Bool := false
deriving DecidableEq

/-- Result of a model call: `{ text, error? }`. -/
structure ModelResponse where
  text : String
  error : Option String := none
deriving DecidableEq

/-- `POPUP_DETECTION_THRESHOLD = 15000` (reactiveOrchestrator.ts line
27). -/
def POPUP_DETECTION_THRESHOLD : Nat := 15000

/-- Collapse every whitespace run to a single space (the
`replace(/\s+/g, ' ')` step). -/
def collapseWsGo : List Char → Bool → List Char
  | [], _ => []
  | c :: rest, prevWs =>
      if Char.isWhitespace c then
        if prevWs then collapseWsGo rest true
        else ' ' :: collapseWsGo rest true
      else c :: collapseWsGo rest false

/-- `normalizeGuidance` (lines 265–272): lowercase, strip `*`/`_`/backtick,
collapse whitespace, trim, first 80 characters. -/
def normalizeGuidance (text : String) : String :=
  jsSlice (jsTrim (String.mk (collapseWsGo
    ((jsToLower text).toList.filter fun c => !(c = '*' || c = '_' || c = btick))
    false))) 0 80

/-- `hasMajorScreenChange` (lines 245–260): on the first frame, store it
and report no change; otherwise compare byte lengths against the popup
threshold.  Returns the (possibly updated) state alongside the verdict. -/
def hasMajorScreenChangeRun (st : OrchState) (screenshot : String) :
    OrchState × Bool :=
  match st.lastScreenshot with
  | none => ({ st with lastScreenshot := some screenshot }, false)
  | some last =>
      if Int.natAbs ((screenshot.length : Int) -
          (last.length : Int)) ≥ POPUP_DETECTION_THRESHOLD then
        (st, true)
      else (st, false)

/-- `triggerManualCheck` (lines 277–364): guarded on `isProcessing` and an
active goal; captures, stores the screenshot, issues one model call, then
either completes the goal (celebratory message) or appends guidance,
updates `lastGuidance` and resolves coordinates; `finally` clears the
processing flag. -/
def triggerManualCheck (env : AccessibilityEnv) (st : OrchState)
    (capture : Option String) (resp : ModelResponse) : OrchState × Effects :=
  if st.isProcessing ∨ st.currentGoal = none then (st, {})
  else
    let st := { st with isProcessing := true }
    match capture with
    | none => ({ st with isProcessing := false }, { captureCalls := 1 })
    | some screenshot =>
        let st := { st with lastScreenshot := some screenshot }
        -- `analyzeScreenWithClaude(screenshot, goal, lastGuidance)`
        let sm : OrchState × List String :=
          if resp.error ≠ none ∨ resp.text = "" then (st, [])
          else
            let trimmedResponse := jsTrim resp.text
            let isComplete := isCompleteManual resp.text
            let parsed := parseCoordinatesFromResponse resp.text
            if isComplete then
              ({ st with currentGoal := none },
               [if jsStartsWith trimmedResponse "🎉" then trimmedResponse
                else "🎉 " ++ trimmedResponse])
            else
              let _ := resolveCoordinates env parsed.target parsed.coordinates
                screenshot
              ({ st with lastGuidance := some parsed.text }, [parsed.text])
        ({ sm.1 with isProcessing := false },
         { captureCalls := 1, analyzeCalls := 1, messages := sm.2 })

/-- `handleClickEvent` (lines 550–683): guarded on `isProcessing` only —
with no goal it proceeds with a generic prompt; completion requires an
active goal and also clears `lastGuidance`. -/
def handleClickEvent (env : AccessibilityEnv) (st : OrchState)
    (capture : Option String) (resp : ModelResponse) : OrchState × Effects :=
  if st.isProcessing then (st, {})
  else
    let st := { st with isProcessing := true }
    match capture with
    | none => ({ st with isProcessing := false }, { captureCalls := 1 })
    | some screenshot =>
        -- goal := currentGoal ?? generic next-action prompt
        let sm : OrchState × List String :=
          if resp.error ≠ none ∨ resp.text = "" then (st, [])
          else
            let parsed := parseCoordinatesFromResponse resp.text
            let trimmedResponse := jsTrim resp.text
            let isComplete := isCompleteClick resp.text
            if isComplete ∧ st.currentGoal ≠ none then
              ({ st with currentGoal := none, lastGuidance := none },
               [if jsStartsWith trimmedResponse "🎉" then trimmedResponse
                else "🎉 " ++ trimmedResponse])
            else
              let _ := resolveCoordinates env parsed.target parsed.coordinates
                screenshot
              ({ st with lastGuidance := some parsed.text }, [parsed.text])
        ({ sm.1 with isProcessing := false },
         { captureCalls := 1, analyzeCalls := 1, messages := sm.2 })

/-- `checkForPopups` (lines 761–850): guarded like the manual check;
captures, acts only on a major byte-length change, then issues one model
call and sends guidance only when its normalized text differs from the
previous guidance (with the reduced completion classifier). -/
def checkForPopups (env : AccessibilityEnv) (st : OrchState)
    (capture : Option String) (resp : ModelResponse) : OrchState × Effects :=
  if st.isProcessing ∨ st.currentGoal = none then (st, {})
  else
    match capture with
    | none => (st, { captureCalls := 1 })
    | some screenshot =>
        let pr := hasMajorScreenChangeRun st screenshot
        if pr.2 = false then (pr.1, { captureCalls := 1 })
        else
          let st2 :=
            { pr.1 with isProcessing := true, lastScreenshot := some screenshot }
          -- one `analyzeScreenWithClaude` call from here on
          let sm : OrchState × List String :=
            if resp.error ≠ none ∨ resp.text = "" then (st2, [])
            else
              let normalizedNew := normalizeGuidance resp.text
              let normalizedOld :=
                match st2.lastGuidance with
                | some g => normalizeGuidance g
                | none => ""
              if normalizedNew ≠ normalizedOld then
                let isComplete := isCompletePopup resp.text
                let parsed := parseCoordinatesFromResponse resp.text
                if isComplete then
                  ({ st2 with currentGoal := none }, ["🎉 " ++ parsed.text])
                else
                  let _ := resolveCoordinates env parsed.target
                    parsed.coordinates screenshot
                  ({ st2 with lastGuidance := some parsed.text },
                   ["💡 *Screen changed*\n\n" ++ parsed.text])
              else (st2, [])
          ({ sm.1 with isProcessing := false },
           { captureCalls := 1, analyzeCalls := 1, messages := sm.2 })

/-- The apostrophe, as a string. -/
def apos : String := String.mk [squote]

/-- `handleConversation` (lines 497–544): canned replies, with a
screen-check path when the user says done/next while a goal is active. -/
def handleConversation (env : AccessibilityEnv) (st : OrchState)
    (message : String) (capture : Option String) (analyze : ModelResponse) :
    OrchState × Effects × String :=
  let lowerMessage := jsToLower message
  if jsIncludes lowerMessage "hi" ∨ jsIncludes lowerMessage "hello" ∨
      jsIncludes lowerMessage "hey" then
    (st, {}, "Hey! 👋 What would you like help with today? Just tell me what you" ++
      apos ++ "re trying to do!")
  else if jsIncludes lowerMessage "thank" then
    (st, {}, "You" ++ apos ++
      "re welcome! Let me know if you need help with anything else.")
  else if jsIncludes lowerMessage "done" ∨ jsIncludes lowerMessage "next" then
    if st.currentGoal ≠ none then
      match capture with
      | some screenshot =>
          match analyze.error with
          | none =>
              let parsed := parseCoordinatesFromResponse analyze.text
              let _ := resolveCoordinates env parsed.target parsed.coordinates
                screenshot
              ({ st with lastGuidance := some parsed.text },
               { captureCalls := 1, analyzeCalls := 1 }, parsed.text)
          | some _ =>
              (st, { captureCalls := 1, analyzeCalls := 1 },
               "What would you like help with?")
      | none => (st, { captureCalls := 1 }, "What would you like help with?")
    else (st, {}, "What would you like help with?")
  else
    (st, {}, "I" ++ apos ++
      "m here to help you navigate software! Just tell me what you" ++ apos ++
      "re trying to do, and I" ++ apos ++ "ll guide you step by step.")

/-- `processUserMessage` (lines 381–492): classify intent (`intent` is the
result of `classifyIntentClaude`); conversational messages go to
`handleConversation`; tasks capture the screen (text-only apology when
that fails), answer directly in single mode, or set the goal, issue one
guidance call, parse, resolve, and start monitoring in steps mode. -/
def processUserMessage (env : AccessibilityEnv) (st : OrchState)
    (guidanceMode : GuidanceMode) (userMessage : String)
    (intent : Bool × String) (capture : Option String)
    (quick analyze : ModelResponse) : OrchState × Effects × String :=
  let (isTask, task) := intent
  if !isTask then handleConversation env st userMessage capture analyze
  else
    match capture with
    | none =>
        (st, { captureCalls := 1 },
         "I can" ++ apos ++ "t see your screen right now. Please make sure screen capture is enabled and try again.")
    | some screenshot =>
        if guidanceMode = GuidanceMode.single then
          match quick.error with
          | some e =>
              (st, { captureCalls := 1, quickAnswerCalls := 1 },
               "I encountered an error: " ++ e ++ ". Please try again.")
          | none =>
              (st, { captureCalls := 1, quickAnswerCalls := 1 }, quick.text)
        else
          let st := { st with currentGoal := some task, lastGuidance := none }
          match analyze.error with
          | some e =>
              (st, { captureCalls := 1, analyzeCalls := 1 },
               "I encountered an error: " ++ e ++ ". Please try again.")
          | none =>
              let parsed := parseCoordinatesFromResponse analyze.text
              let st := { st with lastGuidance := some parsed.text }
              let _ := resolveCoordinates env parsed.target parsed.coordinates
                screenshot
              (st, { captureCalls := 1, analyzeCalls := 1,
                     monitoringStarted := true }, parsed.text)

/-- A string of `n` copies of `'a'` (witness screenshots of a given byte
length). -/
def replicateStr (n : Nat) : String :=
  String.mk (List.replicate n 'a')

end SigmaGuide

/-! ## C9 and C10: processUserMessage paths -/

namespace SigmaGuide

/-- Length of the witness screenshot strings. -/
theorem replicateStr_length (n : Nat) : (replicateStr n).length = n := by
  show (List.replicate n 'a').length = n
  exact List.length_replicate n 'a'

/-- C9. When screen capture fails on a task message, `processUserMessage`
returns the fixed text-only apology; the state (goal, lastGuidance,
lastScreenshot, processing flag) is unchanged and the effects record shows
one capture attempt (no retry), no guidance call and no quick-answer
call. -/
theorem processUserMessage_captureFailure
    (env : AccessibilityEnv) (st : OrchState) (mode : GuidanceMode)
    (msg task : String) (quick analyze : ModelResponse) :
    processUserMessage env st mode msg (true, task) none quick analyze =
      (st, { captureCalls := 1 },
       "I can" ++ apos ++ "t see your screen right now. Please make sure screen capture is enabled and try again.") := rfl

/-- C10. In single guidance mode a task message is answered by exactly one
quick-answer call; the state is returned unchanged (no goal created or
modified, `lastGuidance`/`lastScreenshot` untouched), no guidance call is
made and no task monitoring is started. -/
theorem processUserMessage_singleMode
    (env : AccessibilityEnv) (st : OrchState) (msg task s : String)
    (quick analyze : ModelResponse) :
    processUserMessage env st GuidanceMode.single msg (true, task) (some s)
        quick analyze =
      (st, { captureCalls := 1, quickAnswerCalls := 1 },
       match quick.error with
       | some e => "I encountered an error: " ++ e ++ ". Please try again."
       | none => quick.text) := by
  cases h : quick.error <;> simp [processUserMessage, h]

end SigmaGuide

/-! ## C4: popup-check gating on byte-length difference -/

namespace SigmaGuide

/-- C4. The background popup check issues no model call on the very first
frame (it only stores it), none when the byte-length difference from the
stored frame is below `POPUP_DETECTION_THRESHOLD`, and exactly one when
the difference reaches the threshold (with an active goal and no check in
flight). -/
theorem checkForPopups_gating (env : AccessibilityEnv) :
    (∀ st cap resp, st.lastScreenshot = none →
        (checkForPopups env st cap resp).2.analyzeCalls = 0) ∧
    (∀ st prev s resp, st.lastScreenshot = some prev →
        Int.natAbs ((s.length : Int) - (prev.length : Int)) <
          POPUP_DETECTION_THRESHOLD →
        (checkForPopups env st (some s) resp).2.analyzeCalls = 0) ∧
    (∀ st g prev s resp, st.isProcessing = false → st.currentGoal = some g →
        st.lastScreenshot = some prev →
        POPUP_DETECTION_THRESHOLD ≤
          Int.natAbs ((s.length : Int) - (prev.length : Int)) →
        (checkForPopups env st (some s) resp).2.analyzeCalls = 1) := by
  refine ⟨?_, ?_, ?_⟩
  · intro st cap resp h
    unfold checkForPopups
    split
    · rfl
    · cases cap with
      | none => rfl
      | some s => simp [hasMajorScreenChangeRun, h]
  · intro st prev s resp h hlt
    have hm : hasMajorScreenChangeRun st s = (st, false) := by
      unfold hasMajorScreenChangeRun
      rw [h]
      simp [Nat.not_le.mpr hlt]
    unfold checkForPopups
    split
    · rfl
    · simp [hm]
  · intro st g prev s resp hp hg h hge
    have hm : hasMajorScreenChangeRun st s = (st, true) := by
      unfold hasMajorScreenChangeRun
      rw [h]
      simp [hge]
    unfold checkForPopups
    rw [if_neg (by simp [hp, hg])]
    simp [hm]

/-- Witness for C4: concrete runs with byte-length differences 200 (no
call), 20000 (one call), and a first frame (no call). -/
theorem checkForPopups_gating_witness :
    (checkForPopups ⟨false, none⟩ ⟨some "goal", none, some "", false⟩
        (some (replicateStr 200)) ⟨"hello", none⟩).2.analyzeCalls = 0 ∧
    (checkForPopups ⟨false, none⟩ ⟨some "goal", none, some "", false⟩
        (some (replicateStr 20000)) ⟨"hello", none⟩).2.analyzeCalls = 1 ∧
    (checkForPopups ⟨false, none⟩ ⟨some "goal", none, none, false⟩
        (some "shot") ⟨"hello", none⟩).2.analyzeCalls = 0 :=
  ⟨(checkForPopups_gating ⟨false, none⟩).2.1 _ "" _ _ rfl
     (by rw [replicateStr_length]; decide),
   (checkForPopups_gating ⟨false, none⟩).2.2 _ "goal" "" _ _ rfl rfl rfl
     (by rw [replicateStr_length]; decide),
   (checkForPopups_gating ⟨false, none⟩).1 _ _ _ rfl⟩

end SigmaGuide

/-! ## C5: reentrancy guards -/

namespace SigmaGuide

set_option maxRecDepth 100000 in
/-- C5 counterexample.  The claim says the click handler also returns
without a model call when there is no active goal; but with no goal (and
the processing flag clear) `handleClickEvent` proceeds with a generic
prompt: it issues one model call and adds a chat message. -/
theorem handleClickEvent_noGoal_counterexample :
    (handleClickEvent ⟨false, none⟩ ⟨none, none, none, false⟩ (some "shot")
        ⟨"Click the File menu.", none⟩).2.analyzeCalls = 1 ∧
    (handleClickEvent ⟨false, none⟩ ⟨none, none, none, false⟩ (some "shot")
        ⟨"Click the File menu.", none⟩).2.messages ≠ [] := by
  constructor
  · rfl
  · decide

/-- C5 amended.  `triggerManualCheck` and the background check return with
no model call and a completely unchanged state when the processing flag is
set or no goal is active; `handleClickEvent` guards on the processing flag
only (with no goal it proceeds with a generic prompt).  Consequently two
overlapping manual checks issue exactly one model call: the first sets the
flag and calls once; the second, seeing the flag (whatever else the state
holds at its trigger point), calls zero times. -/
theorem reentrancyGuards_amended (env : AccessibilityEnv) :
    (∀ st cap resp, st.isProcessing = true →
        triggerManualCheck env st cap resp = (st, {})) ∧
    (∀ st cap resp, st.currentGoal = none →
        triggerManualCheck env st cap resp = (st, {})) ∧
    (∀ st cap resp, st.isProcessing = true →
        checkForPopups env st cap resp = (st, {})) ∧
    (∀ st cap resp, st.currentGoal = none →
        checkForPopups env st cap resp = (st, {})) ∧
    (∀ st cap resp, st.isProcessing = true →
        handleClickEvent env st cap resp = (st, {})) ∧
    (∀ st g s resp cap' resp', st.isProcessing = false →
        st.currentGoal = some g →
        (triggerManualCheck env st (some s) resp).2.analyzeCalls = 1 ∧
        (triggerManualCheck env { st with isProcessing := true }
          cap' resp').2.analyzeCalls = 0) := by
  refine ⟨?_, ?_, ?_, ?_, ?_, ?_⟩
  · intro st cap resp h
    simp [triggerManualCheck, h]
  · intro st cap resp h
    simp [triggerManualCheck, h]
  · intro st cap resp h
    simp [checkForPopups, h]
  · intro st cap resp h
    simp [checkForPopups, h]
  · intro st cap resp h
    simp [handleClickEvent, h]
  · intro st g s resp cap' resp' hp hg
    constructor
    · simp [triggerManualCheck, hp, hg]
    · simp [triggerManualCheck]

/-- Witness for C5 (amended): concrete guarded and overlapping runs. -/
theorem reentrancyGuards_amended_witness :
    (triggerManualCheck ⟨false, none⟩ ⟨some "g", none, none, true⟩ (some "s")
        ⟨"t", none⟩ = (⟨some "g", none, none, true⟩, {})) ∧
    (triggerManualCheck ⟨false, none⟩ ⟨none, some "lg", none, false⟩ (some "s")
        ⟨"t", none⟩ = (⟨none, some "lg", none, false⟩, {})) ∧
    (checkForPopups ⟨false, none⟩ ⟨some "g", none, none, true⟩ (some "s")
        ⟨"t", none⟩ = (⟨some "g", none, none, true⟩, {})) ∧
    (checkForPopups ⟨false, none⟩ ⟨none, none, none, false⟩ (some "s")
        ⟨"t", none⟩ = (⟨none, none, none, false⟩, {})) ∧
    (handleClickEvent ⟨false, none⟩ ⟨some "g", none, none, true⟩ (some "s")
        ⟨"t", none⟩ = (⟨some "g", none, none, true⟩, {})) ∧
    ((triggerManualCheck ⟨false, none⟩ ⟨some "g", none, none, false⟩
        (some "shot") ⟨"Click X", none⟩).2.analyzeCalls = 1 ∧
     (triggerManualCheck ⟨false, none⟩ ⟨some "g", none, none, true⟩
        (some "shot2") ⟨"Click Y", none⟩).2.analyzeCalls = 0) := by
  have h := reentrancyGuards_amended ⟨false, none⟩
  exact ⟨h.1 _ _ _ rfl, h.2.1 _ _ _ rfl, h.2.2.1 _ _ _ rfl,
         h.2.2.2.1 _ _ _ rfl, h.2.2.2.2.1 _ _ _ rfl,
         h.2.2.2.2.2 ⟨some "g", none, none, false⟩ "g" "shot"
           ⟨"Click X", none⟩ (some "shot2") ⟨"Click Y", none⟩ rfl rfl⟩

end SigmaGuide

/-! ## C7: duplicate-guidance suppression in the popup check -/

namespace SigmaGuide

/-- C7. After a major change and a successful model call, the popup check
sends no chat message and leaves `lastGuidance` unchanged when the
normalized new guidance equals the normalized previous guidance; when they
differ it sends a message. -/
theorem checkForPopups_duplicateSuppression (env : AccessibilityEnv) :
    (∀ st g prev lg s resp,
        st.isProcessing = false → st.currentGoal = some g →
        st.lastScreenshot = some prev → st.lastGuidance = some lg →
        resp.error = none → ¬ resp.text = "" →
        POPUP_DETECTION_THRESHOLD ≤
          Int.natAbs ((s.length : Int) - (prev.length : Int)) →
        normalizeGuidance resp.text = normalizeGuidance lg →
        (checkForPopups env st (some s) resp).2.messages = [] ∧
        (checkForPopups env st (some s) resp).1.lastGuidance = some lg) ∧
    (∀ st g prev lg s resp,
        st.isProcessing = false → st.currentGoal = some g →
        st.lastScreenshot = some prev → st.lastGuidance = some lg →
        resp.error = none → ¬ resp.text = "" →
        POPUP_DETECTION_THRESHOLD ≤
          Int.natAbs ((s.length : Int) - (prev.length : Int)) →
        ¬ normalizeGuidance resp.text = normalizeGuidance lg →
        (checkForPopups env st (some s) resp).2.messages ≠ []) := by
  constructor
  · intro st g prev lg s resp hp hg hls hlg herr htext hge hnorm
    have hm : hasMajorScreenChangeRun st s = (st, true) := by
      unfold hasMajorScreenChangeRun
      rw [hls]
      simp [hge]
    unfold checkForPopups
    rw [if_neg (by simp [hp, hg])]
    constructor
    · simp [hm, herr, htext, hlg, hnorm]
    · simp [hm, herr, htext, hlg, hnorm]
  · intro st g prev lg s resp hp hg hls hlg herr htext hge hnorm
    have hm : hasMajorScreenChangeRun st s = (st, true) := by
      unfold hasMajorScreenChangeRun
      rw [hls]
      simp [hge]
    unfold checkForPopups
    rw [if_neg (by simp [hp, hg])]
    cases hc : isCompletePopup resp.text <;>
      simp [hm, herr, htext, hlg, hnorm, hc]

/-- Witness for C7: a 15000-byte change with an identical normalized
guidance sends nothing and keeps `lastGuidance`; a different guidance
sends a message. -/
theorem checkForPopups_duplicateSuppression_witness :
    ((checkForPopups ⟨false, none⟩ ⟨some "g", some "Click A", some "", false⟩
        (some (replicateStr 15000)) ⟨"Click A", none⟩).2.messages = [] ∧
     (checkForPopups ⟨false, none⟩ ⟨some "g", some "Click A", some "", false⟩
        (some (replicateStr 15000)) ⟨"Click A", none⟩).1.lastGuidance =
       some "Click A") ∧
    (checkForPopups ⟨false, none⟩ ⟨some "g", some "Click A", some "", false⟩
        (some (replicateStr 15000)) ⟨"Click B", none⟩).2.messages ≠ [] :=
  ⟨(checkForPopups_duplicateSuppression ⟨false, none⟩).1 _ "g" "" "Click A" _ _
     rfl rfl rfl rfl rfl (by decide) (by rw [replicateStr_length]; decide) rfl,
   (checkForPopups_duplicateSuppression ⟨false, none⟩).2 _ "g" "" "Click A" _ _
     rfl rfl rfl rfl rfl (by decide) (by rw [replicateStr_length]; decide)
     (by decide)⟩

end SigmaGuide
